import Mathlib

/-
Verification development for the RAGChatbot repository (files
VectorStore.py, ChatBot.py, __init__.py).

The code is a vector-store synchronizer between a local directory
(./vectorStore/...) and an S3 bucket (keys vectorstores/...), plus a
conversational RAG orchestrator.  We give a shallow embedding: the
mutable environment (S3 bucket contents, local file trees, the source
document pool, the global initialization flag, and an event trace of
remote calls and sleeps) is an explicit World record threaded through
every function; Python exceptions are modelled with Except; transient
remote faults are injected deterministically through a Faults record
(a faulty primitive raises on every attempt, matching the scenarios of
the specification where an operation keeps failing).
-/

namespace RAGChatbot

/-- Character-list test: does cs begin with pat (used below to model both
Python str.startswith and the S3 Prefix filter of list_objects). -/
def charsBegin : List Char → List Char → Bool
  | [], _ => true
  | _ :: _, [] => false
  | p :: ps, c :: cs => p == c && charsBegin ps cs

/-- Does the string s begin with the string pat. -/
def strBegins (s pat : String) : Bool :=
  charsBegin pat.toList s.toList

/-- Splitting a character list on the slash character, as Python
str.split with separator "/" does: every separator occurrence delimits
a (possibly empty) field. -/
def splitSlashAux : List Char → List Char → List String
  | [], acc => [String.mk acc.reverse]
  | c :: rest, acc =>
    if c == '/' then String.mk acc.reverse :: splitSlashAux rest []
    else splitSlashAux rest (c :: acc)

/-- Python s.split with separator slash. -/
def splitSlash (s : String) : List String :=
  splitSlashAux s.toList []

/-- The extension produced by Python os.path.splitext on a bare file
name (no directory separators): the suffix starting at the last dot,
except that a dot is not an extension separator when every character
before it is itself a dot (so a leading dot-file has no extension). -/
def splitextExt (s : String) : String :=
  let cs := s.toList
  let dotIdxs := (List.range cs.length).filter fun i => cs.getD i ' ' == '.'
  match dotIdxs.getLast? with
  | none => ""
  | some i =>
    if (List.range i).all (fun j => cs.getD j ' ' == '.') then ""
    else String.mk (cs.drop i)

/-- A node of a local file tree under ./vectorStore/ : a plain file or
a directory with an ordered child list (the order is the os.listdir
order). -/
inductive Entry where
  | file (name : String)
  | dir (name : String) (sub : List Entry)

/-- The name of a local tree node. -/
def Entry.name : Entry → String
  | .file n => n
  | .dir n _ => n

mutual

/-- Depth of a tree node (a file has depth 1). -/
def Entry.depth : Entry → Nat
  | .file _ => 1
  | .dir _ sub => 1 + Entry.depthList sub

/-- Depth of a child list. -/
def Entry.depthList : List Entry → Nat
  | [] => 0
  | e :: es => max e.depth (Entry.depthList es)

end

/-- Resolve a relative path (segment list) inside a child list. -/
def findIn : List String → List Entry → Option Entry
  | [], _ => none
  | [n], es => es.find? fun e => e.name == n
  | n :: rest, es =>
    match es.find? (fun e => e.name == n) with
    | some (Entry.dir _ sub) => findIn rest sub
    | _ => none

/-- Insert a file at a relative path into a child list, creating the
intermediate directories (the mkdir -p of the download path); an
already present name is left in place (a download overwrites contents,
which the tree of names does not record). -/
def insertFile : List String → List Entry → List Entry
  | [], es => es
  | [n], es =>
    if es.any (fun e => e.name == n) then es else es ++ [Entry.file n]
  | n :: rest, es =>
    match es.find? (fun e => e.name == n) with
    | some (Entry.dir _ _) =>
      es.map fun e =>
        match e with
        | Entry.dir m sub => if m == n then Entry.dir m (insertFile rest sub) else Entry.dir m sub
        | other => other
    | _ => es ++ [Entry.dir n (insertFile rest [])]

/-- An event of the observable effect trace: one remote primitive call
(list, delete-objects with the key batch passed, upload of one key with
its outcome, download of one key) or one sleep(3). -/
inductive Ev where
  | listCall
  | deleteKeys (ks : List String)
  | uploadKey (k : String) (ok : Bool)
  | downloadKey (k : String)
  | sleep3

/-- Deterministic fault injection for the remote primitives: a marked
primitive raises on every attempt (uploads are marked per remote key). -/
structure Faults where
  listFails : Bool
  deleteFails : Bool
  downloadFails : Bool
  uploadFails : List String
  chromaOpenFails : Bool

/-- The mutable environment of VectorStore.py: whether initS3Storage
ran (the module globals bucket and S3 client being set), the remote
bucket contents as a key list, the local trees under ./vectorStore/
(one per product id), the source folders under ./productKnowledgePool/
(one file-name list per product id; a present id with an empty list is
an existing empty folder), and the effect trace. -/
structure World where
  s3init : Bool
  remote : List String
  localVS : List (String × List Entry)
  pool : List (String × List String)
  trace : List Ev

/-- Append one event to the trace. -/
def emit (w : World) (e : Ev) : World :=
  { w with trace := w.trace ++ [e] }

/-- The sleep(3) call. -/
def sleepThree (w : World) : World :=
  emit w Ev.sleep3

/-- The remote key space of one product id: the Prefix string
vectorstores/{id} passed to list_objects (no trailing slash, exactly
as in the source). -/
def vsKeyPre (id : String) : String :=
  "vectorstores/" ++ id

/-- The remote objects currently under the prefix of an id. -/
def remoteUnder (w : World) (id : String) : List String :=
  w.remote.filter fun k => strBegins k (vsKeyPre id)

/-- The local tree of an id (present iff ./vectorStore/{id} exists). -/
def lookupVS (w : World) (id : String) : Option (List Entry) :=
  (w.localVS.find? (fun p => p.1 == id)).map (fun p => p.2)

/-- The source folder of an id (present iff ./productKnowledgePool/{id}
exists). -/
def lookupPool (w : World) (id : String) : Option (List String) :=
  (w.pool.find? (fun p => p.1 == id)).map (fun p => p.2)

/-- boto3 list_objects with a prefix: raises when the list fault is
set, otherwise answers the keys under the prefix (the Contents entry
of the response is present iff that list is not empty). -/
def s3listObjects (f : Faults) (pre : String) (w : World) :
    Except String (List String) × World :=
  let w1 := emit w Ev.listCall
  if f.listFails then (Except.error "remote failure", w1)
  else (Except.ok (w1.remote.filter fun k => strBegins k pre), w1)

/-- bucket.delete_objects on a key batch: raises when the delete fault
is set, otherwise removes the keys. -/
def s3deleteObjects (f : Faults) (ks : List String) (w : World) :
    Except String Unit × World :=
  let w1 := emit w (Ev.deleteKeys ks)
  if f.deleteFails then (Except.error "remote failure", w1)
  else (Except.ok (), { w1 with remote := w1.remote.filter fun k => !(ks.contains k) })

/-- Does the local file ./vectorStore/{id}/{segs} exist. -/
def localFileExists (w : World) (id : String) (segs : List String) : Bool :=
  match lookupVS w id with
  | none => false
  | some es =>
    match findIn segs es with
    | some (Entry.file _) => true
    | _ => false

/-- bucket.upload_file of the local file ./vectorStore/{id}/{segs} to
a remote key: raises when the key is marked faulty or the local file is
missing (boto raises on a missing source file), otherwise stores the
key. -/
def s3uploadFile (f : Faults) (id : String) (segs : List String) (key : String)
    (w : World) : Except String Unit × World :=
  let ok := localFileExists w id segs && !(f.uploadFails.contains key)
  let w1 := emit w (Ev.uploadKey key ok)
  if ok then
    (Except.ok (),
      { w1 with remote := if w1.remote.contains key then w1.remote else w1.remote ++ [key] })
  else (Except.error "upload failure", w1)

/-- bucket.download_file of a key to ./vectorStore/{id}/{segs}: raises
when the download fault is set, otherwise writes the local file
(creating directories, as the mkdir -p before it does). -/
def s3downloadFile (f : Faults) (key : String) (id : String) (segs : List String)
    (w : World) : Except String Unit × World :=
  let w1 := emit w (Ev.downloadKey key)
  if f.downloadFails then (Except.error "remote failure", w1)
  else
    let w2 :=
      match w1.localVS.find? (fun p => p.1 == id) with
      | some _ =>
        { w1 with localVS := w1.localVS.map fun p =>
            if p.1 == id then (p.1, insertFile segs p.2) else p }
      | none => { w1 with localVS := w1.localVS ++ [(id, insertFile segs [])] }
    (Except.ok (), w2)

/-- The message of the exception raised by the private helper that
checks that initS3Storage ran (VectorStore.__checkS3init). -/
def initErrMsg : String :=
  "S3 storage not initialized, for initialization call initS3Storage(bucket_name) first"

/-- The retry loop of checkS3VectorStoreFor: for retry in range(3),
try list_objects; a response without Contents answers False, one with
Contents answers True; on an exception sleep(3) and retry; after the
loop return False.  The fuel argument is the number of remaining loop
iterations (3 at entry). -/
def checkLoop (f : Faults) (id : String) : Nat → World → Bool × World
  | 0, w => (false, w)
  | n + 1, w =>
    match s3listObjects f (vsKeyPre id) w with
    | (Except.ok ks, w1) => (!ks.isEmpty, w1)
    | (Except.error _, w1) => checkLoop f id n (sleepThree w1)

/-- VectorStore.checkS3VectorStoreFor: the remote existence check.
Raises the initialization error when initS3Storage has not run,
otherwise runs the retry loop. -/
def checkS3VectorStoreFor (f : Faults) (id : String) (w : World) :
    Except String Bool × World :=
  if w.s3init then
    let r := checkLoop f id 3 w
    (Except.ok r.1, r.2)
  else (Except.error initErrMsg, w)

/-- The inner deletion loop of deleteS3VectorstoreFor: for each listed
content the key is appended to the accumulating keys list and
delete_objects is called with the whole accumulated batch (exactly the
nested call of the source, which re-deletes earlier keys). -/
def deleteAccLoop (f : Faults) (acc : List String) :
    List String → World → Except String Unit × World
  | [], w => (Except.ok (), w)
  | k :: rest, w =>
    let acc1 := acc ++ [k]
    match s3deleteObjects f acc1 w with
    | (Except.ok _, w1) => deleteAccLoop f acc1 rest w1
    | (Except.error e, w1) => (Except.error e, w1)

/-- One try-block body of deleteS3VectorstoreFor: list the keys under
the prefix; no Contents answers True (nothing to delete); otherwise run
the accumulating deletion loop and answer True. -/
def deleteTry (f : Faults) (id : String) (w : World) :
    Except String Bool × World :=
  match s3listObjects f (vsKeyPre id) w with
  | (Except.error e, w1) => (Except.error e, w1)
  | (Except.ok ks, w1) =>
    if ks.isEmpty then (Except.ok true, w1)
    else
      match deleteAccLoop f [] ks w1 with
      | (Except.ok _, w2) => (Except.ok true, w2)
      | (Except.error e, w2) => (Except.error e, w2)

/-- The retry loop of deleteS3VectorstoreFor (3 iterations, sleep(3)
after each caught exception, False after exhaustion). -/
def deleteRetryLoop (f : Faults) (id : String) : Nat → World → Bool × World
  | 0, w => (false, w)
  | n + 1, w =>
    match deleteTry f id w with
    | (Except.ok b, w1) => (b, w1)
    | (Except.error _, w1) => deleteRetryLoop f id n (sleepThree w1)

/-- VectorStore.deleteS3VectorstoreFor: delete every remote object
under the prefix of the id.  Raises the initialization error when
initS3Storage has not run. -/
def deleteS3VectorstoreFor (f : Faults) (id : String) (w : World) :
    Except String Bool × World :=
  if w.s3init then
    let r := deleteRetryLoop f id 3 w
    (Except.ok r.1, r.2)
  else (Except.error initErrMsg, w)

/-- A handle on an opened local Chroma store (the value returned by the
Chroma constructor, identified by the id whose directory backs it). -/
structure ChromaHandle where
  hid : String

/-- VectorStore.__getLocalVectorStoreFor: None when ./vectorStore/{id}
does not exist; otherwise the Chroma constructor is tried, and a
constructor failure (modelled by the chromaOpenFails fault) is caught
and turned into None. -/
def getLocalVectorStoreFor (f : Faults) (id : String) (w : World) :
    Option ChromaHandle × World :=
  match lookupVS w id with
  | none => (none, w)
  | some _ => if f.chromaOpenFails then (none, w) else (some ⟨id⟩, w)

/-- VectorStore.deleteLocalVectorStore: open the local store if any
(clearing the client cache and deleting the collection touches only
library state), then remove ./vectorStore/{id} recursively with
rm -rf; os.system does not raise, so the except branch is dead and the
function returns True. -/
def deleteLocalVectorStore (f : Faults) (id : String) (w : World) :
    Bool × World :=
  let r := getLocalVectorStoreFor f id w
  let w1 := r.2
  (true, { w1 with localVS := w1.localVS.filter fun p => !(p.1 == id) })

/-- The per-key body of the download loop: split the key on slashes,
take the segments after vectorstores/{id} as the father directory and
the last segment as the file name, create the directories and download
the key to ./vectorStore/{id}/{father}/{file_name}. -/
def downloadKeysLoop (f : Faults) (id : String) :
    List String → World → Except String Unit × World
  | [], w => (Except.ok (), w)
  | key :: rest, w =>
    let parts := splitSlash key
    let fatherSegs := (parts.drop 2).dropLast
    let fname := parts.getLastD ""
    match s3downloadFile f key id (fatherSegs ++ [fname]) w with
    | (Except.ok _, w1) => downloadKeysLoop f id rest w1
    | (Except.error e, w1) => (Except.error e, w1)

/-- One try-block body of __downloadS3VectorstoreFor: list the keys
under the prefix; no Contents answers False (nothing to download);
otherwise download every key and answer True. -/
def downloadTry (f : Faults) (id : String) (w : World) :
    Except String Bool × World :=
  match s3listObjects f (vsKeyPre id) w with
  | (Except.error e, w1) => (Except.error e, w1)
  | (Except.ok ks, w1) =>
    if ks.isEmpty then (Except.ok false, w1)
    else
      match downloadKeysLoop f id ks w1 with
      | (Except.ok _, w2) => (Except.ok true, w2)
      | (Except.error e, w2) => (Except.error e, w2)

/-- The retry loop of __downloadS3VectorstoreFor; none signals that
the three iterations were exhausted (the code after the loop then
runs). -/
def downloadRetryLoop (f : Faults) (id : String) :
    Nat → World → Option Bool × World
  | 0, w => (none, w)
  | n + 1, w =>
    match downloadTry f id w with
    | (Except.ok b, w1) => (some b, w1)
    | (Except.error _, w1) => downloadRetryLoop f id n (sleepThree w1)

/-- VectorStore.__downloadS3VectorstoreFor: raise the initialization
error if initS3Storage has not run; wipe the local copy; run the retry
loop; on exhaustion delete the local copy again and return False. -/
def downloadS3VectorstoreFor (f : Faults) (id : String) (w : World) :
    Except String Bool × World :=
  if w.s3init then
    let d := deleteLocalVectorStore f id w
    match downloadRetryLoop f id 3 d.2 with
    | (some b, w1) => (Except.ok b, w1)
    | (none, w1) =>
      let d2 := deleteLocalVectorStore f id w1
      (Except.ok false, d2.2)
  else (Except.error initErrMsg, w)

/-- VectorStore.getS3VectorStoreFor: download, then open the local
copy; None when the download reported failure. -/
def getS3VectorStoreFor (f : Faults) (id : String) (w : World) :
    Except String (Option ChromaHandle) × World :=
  match downloadS3VectorstoreFor f id w with
  | (Except.ok true, w1) =>
    let r := getLocalVectorStoreFor f id w1
    (Except.ok r.1, r.2)
  | (Except.ok false, w1) => (Except.ok none, w1)
  | (Except.error e, w1) => (Except.error e, w1)

/-- The remote key built by __upload_file from id, file name and
father. -/
def uploadFileKey (id fname : String) (father : Option String) : String :=
  match father with
  | some fa => "vectorstores/" ++ id ++ "/" ++ fa ++ "/" ++ fname
  | none => "vectorstores/" ++ id ++ "/" ++ fname

/-- The local path (relative to ./vectorStore/{id}) read by
__upload_file. -/
def uploadFileSegs (fname : String) (father : Option String) : List String :=
  match father with
  | some fa => splitSlash fa ++ [fname]
  | none => [fname]

/-- The retry loop of __upload_file (3 iterations, sleep(3) after each
caught exception, False after exhaustion). -/
def uploadFileLoop (f : Faults) (id : String) (segs : List String) (key : String) :
    Nat → World → Bool × World
  | 0, w => (false, w)
  | n + 1, w =>
    match s3uploadFile f id segs key w with
    | (Except.ok _, w1) => (true, w1)
    | (Except.error _, w1) => uploadFileLoop f id segs key n (sleepThree w1)

/-- VectorStore.__upload_file: raise the initialization error if
initS3Storage has not run, otherwise try the upload up to 3 times. -/
def upload_file (f : Faults) (id fname : String) (father : Option String)
    (w : World) : Except String Bool × World :=
  if w.s3init then
    let r := uploadFileLoop f id (uploadFileSegs fname father)
      (uploadFileKey id fname father) 3 w
    (Except.ok r.1, r.2)
  else (Except.error initErrMsg, w)

/-- os.listdir on a path below ./vectorStore given as segment list
(head segment is the product id); none models the FileNotFoundError
raised on a missing directory. -/
def listdirNames (w : World) (segs : List String) : Option (List String) :=
  match segs with
  | [] => none
  | id :: rest =>
    match lookupVS w id with
    | none => none
    | some es =>
      if rest.isEmpty then some (es.map Entry.name)
      else
        match findIn rest es with
        | some (Entry.dir _ sub) => some (sub.map Entry.name)
        | _ => none

/-- os.path.isdir on a path below ./vectorStore given as segment
list. -/
def isDirAt (w : World) (segs : List String) : Bool :=
  match segs with
  | [] => false
  | id :: rest =>
    match lookupVS w id with
    | none => false
    | some es =>
      if rest.isEmpty then true
      else
        match findIn rest es with
        | some (Entry.dir _ _) => true
        | _ => false

/-- The for-loop of __uploadS3VectorstoreFor over the listed names,
abstracted over the recursive call (go is __uploadS3VectorstoreFor at
one more directory level): a directory triggers the recursive call
WHOSE RESULT IS DISCARDED (as in the source, which does not test it);
a file is uploaded with __upload_file, and on its failure the remote
and local stores of the id are both deleted and False is returned. -/
def uploadS3Loop (go : List String → Option String → World → Except String Bool × World)
    (f : Faults) (id : String) (pathSegs : List String) (father : Option String) :
    List String → World → Except String Bool × World
  | [], w => (Except.ok true, w)
  | name :: rest, w =>
    if isDirAt w (pathSegs ++ [name]) then
      let fatherPath :=
        match father with
        | some fa => fa ++ "/" ++ name
        | none => name
      match go (pathSegs ++ [name]) (some fatherPath) w with
      | (Except.error e, w1) => (Except.error e, w1)
      | (Except.ok _, w1) => uploadS3Loop go f id pathSegs father rest w1
    else
      match upload_file f id name father w with
      | (Except.error e, w1) => (Except.error e, w1)
      | (Except.ok true, w1) => uploadS3Loop go f id pathSegs father rest w1
      | (Except.ok false, w1) =>
        match deleteS3VectorstoreFor f id w1 with
        | (Except.error e, w2) => (Except.error e, w2)
        | (Except.ok _, w2) =>
          let d := deleteLocalVectorStore f id w2
          (Except.ok false, d.2)

/-- VectorStore.__uploadS3VectorstoreFor with an explicit path (the
default-None case is the wrapper below).  Faithfully to the source the
function first calls deleteS3VectorstoreFor on the WHOLE id prefix --
on every recursive call, not only at the top -- ignoring its boolean
result, then lists the directory and iterates over the names.  The
fuel argument bounds the recursion depth (the source recursion is
bounded by the finite directory tree); exhausted fuel is a model
artifact reported as an error. -/
def uploadS3Go (f : Faults) (id : String) : Nat → List String → Option String →
    World → Except String Bool × World
  | 0, _, _, w => (Except.error "recursion fuel exhausted", w)
  | n + 1, pathSegs, father, w =>
    match deleteS3VectorstoreFor f id w with
    | (Except.error e, w1) => (Except.error e, w1)
    | (Except.ok _, w1) =>
      match listdirNames w1 pathSegs with
      | none => (Except.error "FileNotFoundError", w1)
      | some names => uploadS3Loop (uploadS3Go f id n) f id pathSegs father names w1

/-- The recursion-depth fuel used by the wrapper: one more than the
depth of the current local tree of the id (the recursion of the source
descends one directory level per call). -/
def uploadFuel (w : World) (id : String) : Nat :=
  match lookupVS w id with
  | none => 1
  | some es => Entry.depthList es + 1

/-- VectorStore.__uploadS3VectorstoreFor at its public entry (path and
father defaulted to None): path becomes ./vectorStore/{id}. -/
def uploadS3VectorstoreFor (f : Faults) (id : String) (w : World) :
    Except String Bool × World :=
  uploadS3Go f id (uploadFuel w id) [id] none w

/-- A loaded knowledge document.  The external parsers attach the
source path as metadata; here src records the originating file name
(for the .txt branch the source constructs the Document without
metadata, but its origin is still the file read, which is what the
specification speaks about) and payload stands for the parsed
content. -/
structure PyDocument where
  src : String
  payload : Nat

/-- The external type-specific parsers (Docx2txtLoader,
UnstructuredExcelLoader, PyPDFLoader) as abstract functions from the
file name to the list of parsed element payloads, and the plain-text
read as one payload. -/
structure Parsers where
  docx : String → List Nat
  excel : String → List Nat
  pdf : String → List Nat
  txtContent : String → Nat

/-- The for-loop of __load_document over the listed files: dispatch on
the splitext extension in the order of the source (docx or doc, xlsx
or xls, pdf, txt, otherwise a debug line and no documents), extending
the accumulated list. -/
def loadLoop (px : Parsers) : List String → List PyDocument
  | [] => []
  | file :: rest =>
    let ext := splitextExt file
    let docs :=
      if ext == ".docx" || ext == ".doc" then
        (px.docx file).map fun n => ⟨file, n⟩
      else if ext == ".xlsx" || ext == ".xls" then
        (px.excel file).map fun n => ⟨file, n⟩
      else if ext == ".pdf" then
        (px.pdf file).map fun n => ⟨file, n⟩
      else if ext == ".txt" then
        [⟨file, px.txtContent file⟩]
      else []
    docs ++ loadLoop px rest

/-- The message of the exception raised by __load_document on a
missing source folder. -/
def poolNotFoundMsg (id : String) : String :=
  "Product knowledge pool for " ++ id ++
    " does not exist, you must first setup the product knowledge pool for this product ID"

/-- VectorStore.__load_document: raise if ./productKnowledgePool/{id}
does not exist, otherwise fold the dispatch loop over the listed
files. -/
def load_document (px : Parsers) (id : String) (w : World) :
    Except String (List PyDocument) :=
  match lookupPool w id with
  | none => Except.error (poolNotFoundMsg id)
  | some files => Except.ok (loadLoop px files)

/-- The extensions the claim lists as supported. -/
def supportedExt (e : String) : Bool :=
  e == ".docx" || e == ".doc" || e == ".xlsx" || e == ".xls" ||
    e == ".pdf" || e == ".txt"

/-- VectorStore.__buildLocalVectorStoreFor: load the documents (the
raise of __load_document propagates), then let the external splitter,
metadata filter and Chroma.from_documents persist an index under
./vectorStore/{id}.  What file tree the Chroma library writes is
external behavior, supplied as the chromaBuild parameter. -/
def buildLocalVectorStoreFor (px : Parsers) (chromaBuild : String → List Entry)
    (id : String) (w : World) : Except String ChromaHandle × World :=
  match load_document px id w with
  | Except.error e => (Except.error e, w)
  | Except.ok _ =>
    let w1 :=
      match w.localVS.find? (fun p => p.1 == id) with
      | some _ =>
        { w with localVS := w.localVS.map fun p =>
            if p.1 == id then (p.1, chromaBuild id) else p }
      | none => { w with localVS := w.localVS ++ [(id, chromaBuild id)] }
    (Except.ok ⟨id⟩, w1)

/-- VectorStore.buildS3VectorStoreFor: build the local store, upload
it, and on either boolean outcome delete the local copy before
returning the outcome. -/
def buildS3VectorStoreFor (f : Faults) (px : Parsers)
    (chromaBuild : String → List Entry) (id : String) (w : World) :
    Except String Bool × World :=
  match buildLocalVectorStoreFor px chromaBuild id w with
  | (Except.error e, w1) => (Except.error e, w1)
  | (Except.ok _, w1) =>
    match uploadS3VectorstoreFor f id w1 with
    | (Except.error e, w2) => (Except.error e, w2)
    | (Except.ok true, w2) =>
      let d := deleteLocalVectorStore f id w2
      (Except.ok true, d.2)
    | (Except.ok false, w2) =>
      let d := deleteLocalVectorStore f id w2
      (Except.ok false, d.2)

/-
ChatBot.py.
-/

/-- Every top-level name bound in the VectorStore module (its imports
followed by its globals and function definitions, in source order).
Module-level names keep their spelling: Python name mangling applies
only to attributes written inside a class body with two leading
underscores, which deleteVectorStore has not. -/
def vectorStoreModuleNames : List String :=
  ["List", "os", "Docx2txtLoader", "UnstructuredExcelLoader", "PyPDFLoader",
   "Document", "RecursiveCharacterTextSplitter", "Chroma", "OpenAIEmbeddings",
   "filter_complex_metadata", "boto3", "sleep",
   "debugMode", "__bucket", "__S3", "__bucket_name",
   "debug", "initS3Storage", "turnOnDebug",
   "buildS3VectorStoreFor", "getS3VectorStoreFor", "checkS3VectorStoreFor",
   "deleteS3VectorstoreFor", "__checkS3init", "__buildLocalVectorStoreFor",
   "__getLocalVectorStoreFor", "deleteLocalVectorStore",
   "__downloadS3VectorstoreFor", "__upload_file", "__uploadS3VectorstoreFor",
   "__buildVectorStoreFromDocuments", "__load_document"]

/-- ChatBot.__del__: the body is the single statement
VectorStore.deleteVectorStore(self.__id).  Attribute resolution on the
module is looked up in the module namespace first; an absent name
raises AttributeError and nothing else runs, so the world is
untouched. -/
def chatBotDel (id : String) (w : World) : Except String Unit × World :=
  if vectorStoreModuleNames.contains "deleteVectorStore" then
    (Except.ok (), w)
  else
    (Except.error
      "AttributeError: module chatbot.VectorStore has no attribute deleteVectorStore", w)

/-- One conversational turn. -/
structure ChatTurn where
  question : String
  answer : String

/-- The chat history of a ChatBot instance: the self.history attribute,
None until first created (ChatMessageHistory holds the turn list). -/
def chatBotInitHistory : Option (List ChatTurn) := none

/-- ChatBot.__get_session_history: the callback handed to
RunnableWithMessageHistory.  Its parameter (the session id) is bound to
underscore and never read; when self.history is None a fresh empty
ChatMessageHistory is stored and returned, otherwise the cached one is
returned. -/
def get_session_history (hist : Option (List ChatTurn)) (sessionId : String) :
    List ChatTurn × Option (List ChatTurn) :=
  match hist with
  | none => ([], some [])
  | some h => (h, some h)

/-- A Python runtime value, as far as ask_question manipulates one: a
string chunk, a dict, or a generator object. -/
inductive PyVal where
  | pyStr (s : String)
  | pyDict (entries : List (String × PyVal))
  | pyGen (chunks : List PyVal)

/-- Python subscription v[k] with a string key: a dict looks the key
up (KeyError when absent); a generator object does not implement
subscription, so a TypeError is raised. -/
def pySubscript : PyVal → String → Except String PyVal
  | PyVal.pyDict es, k =>
    match es.find? (fun p => p.1 == k) with
    | some p => Except.ok p.2
    | none => Except.error ("KeyError: " ++ k)
  | PyVal.pyGen _, _ =>
    Except.error "TypeError: generator object is not subscriptable"
  | PyVal.pyStr _, _ =>
    Except.error "TypeError: string indices must be integers"

/-- The stream method of the conversational chain
(RunnableWithMessageHistory), which in the external library is a
generator function: CALLING it only creates a generator object over
the eventual output chunks; no chain step runs and the history is not
touched until the generator is consumed.  The chunks the generator
would yield are an external parameter. -/
def conversationalRagChainStream (chunks : List PyVal) (question : String)
    (hist : Option (List ChatTurn)) : PyVal × Option (List ChatTurn) :=
  (PyVal.pyGen chunks, hist)

/-- ChatBot.ask_question: return
self.__conversational_rag_chain.stream(input)[quoted answer key] --
the subscription is applied to the value returned by stream. -/
def ask_question (chunks : List PyVal) (question : String)
    (hist : Option (List ChatTurn)) :
    Except String PyVal × Option (List ChatTurn) :=
  let r := conversationalRagChainStream chunks question hist
  (pySubscript r.1 "answer", r.2)

/-
Derived observations on traces, and concrete fixtures used by the
witnesses and counterexamples.
-/

/-- Number of sleep(3) calls in a trace. -/
def sleepCount (tr : List Ev) : Nat :=
  tr.countP fun e => match e with | Ev.sleep3 => true | _ => false

/-- Number of remote primitive calls (attempts) in a trace. -/
def remoteCallCount (tr : List Ev) : Nat :=
  tr.countP fun e => match e with | Ev.sleep3 => false | _ => true

/-- Does the trace record a failed upload attempt. -/
def hasFailedUpload (tr : List Ev) : Bool :=
  tr.any fun e => match e with | Ev.uploadKey _ ok => !ok | _ => false

/-- Number of failed upload attempts of one remote key in a trace. -/
def failedUploadCount (tr : List Ev) (key : String) : Nat :=
  tr.countP fun e =>
    match e with
    | Ev.uploadKey k ok => k == key && !ok
    | _ => false

/-- True iff a delete-objects call occurs in the trace strictly before
the first upload attempt (vacuously true when nothing is uploaded). -/
def deleteBeforeFirstUpload : List Ev → Bool
  | [] => true
  | Ev.deleteKeys _ :: _ => true
  | Ev.uploadKey _ _ :: _ => false
  | _ :: rest => deleteBeforeFirstUpload rest

/-- Common postcondition of the recursive upload functions: the
initialization flag and the pool are preserved, the trace is only
extended, and whenever the run completed normally (no exception)
while its trace delta records a failed upload attempt, both the remote
prefix and the local tree of the id are absent in the final world. -/
def UploadConc (id : String) (w w' : World) (r : Except String Bool) : Prop :=
  w'.s3init = w.s3init ∧ w'.pool = w.pool ∧
  ∃ tl, w'.trace = w.trace ++ tl ∧
    (∀ b, r = Except.ok b → hasFailedUpload tl = true →
      remoteUnder w' id = [] ∧ lookupVS w' id = none)

/-- The upload postcondition holds of every run of uploadS3Go at a
given fuel, on any initialized world and any path below the tree of
the id. -/
def GoStatement (f : Faults) (id : String) (n : Nat) : Prop :=
  ∀ (ps : List String) (father : Option String) (w : World)
    (r : Except String Bool) (w' : World),
    w.s3init = true →
    uploadS3Go f id n (id :: ps) father w = (r, w') →
    UploadConc id w w' r

/-- The upload postcondition holds of every run of the name loop whose
recursive calls run at a given fuel. -/
def LoopStatement (f : Faults) (id : String) (n : Nat) : Prop :=
  ∀ (names ps : List String) (father : Option String) (w : World)
    (r : Except String Bool) (w' : World),
    w.s3init = true →
    uploadS3Loop (uploadS3Go f id n) f id (id :: ps) father names w = (r, w') →
    UploadConc id w w' r

/-- A fresh initialized world: empty bucket, no local stores, a source
folder with one text file for product p and an existing empty source
folder for product e. -/
def wStart : World :=
  { s3init := true, remote := [], localVS := [],
    pool := [("p", ["a.txt"]), ("e", [])], trace := [] }

/-- A world on which initS3Storage never ran. -/
def wNoInit : World :=
  { s3init := false, remote := [], localVS := [], pool := [], trace := [] }

/-- An initialized world whose bucket already holds a previously built
index for product p. -/
def wPre : World :=
  { s3init := true, remote := ["vectorstores/p/old"], localVS := [],
    pool := [("p", ["a.txt"])], trace := [] }

/-- No injected faults. -/
def fNone : Faults :=
  { listFails := false, deleteFails := false, downloadFails := false,
    uploadFails := [], chromaOpenFails := false }

/-- Every remote primitive raises on every attempt. -/
def fAllFail : Faults :=
  { listFails := true, deleteFails := true, downloadFails := true,
    uploadFails := ["vectorstores/p/f"], chromaOpenFails := false }

/-- Only the upload of the nested key vectorstores/p/sub/a raises
(on every attempt, so its retries are exhausted). -/
def fSubA : Faults :=
  { listFails := false, deleteFails := false, downloadFails := false,
    uploadFails := ["vectorstores/p/sub/a"], chromaOpenFails := false }

/-- Only the upload of the key vectorstores/p/idx raises. -/
def fIdx : Faults :=
  { listFails := false, deleteFails := false, downloadFails := false,
    uploadFails := ["vectorstores/p/idx"], chromaOpenFails := false }

/-- A persisted index layout with a top-level file b and a
subdirectory sub holding a file a (in this listdir order). -/
def cbNested : String → List Entry :=
  fun _ => [Entry.file "b", Entry.dir "sub" [Entry.file "a"]]

/-- A flat persisted index layout with a single file idx. -/
def cbFlat : String → List Entry :=
  fun _ => [Entry.file "idx"]

/-- Concrete parsers with distinguishable outputs. -/
def pxBasic : Parsers :=
  { docx := fun _ => [3], excel := fun _ => [4], pdf := fun _ => [1, 2],
    txtContent := fun _ => 7 }

/-- A world whose source folder for product p holds one text file, one
unsupported binary file and one pdf, with an empty folder for e. -/
def wDocs : World :=
  { s3init := true, remote := [], localVS := [],
    pool := [("p", ["a.txt", "b.bin", "c.pdf"]), ("e", [])], trace := [] }

/-
Theorems.
-/

/-- Claim C1: the claim says destroying a ChatBot deletes the entire
remote and local vector index of its product id.  The code contradicts
it: the destructor body calls VectorStore.deleteVectorStore, a name
that is bound nowhere in the VectorStore module (the deletion helpers
are named deleteS3VectorstoreFor and deleteLocalVectorStore), so the
attribute lookup raises AttributeError and, for every id and every
world, the destructor changes nothing: the remote objects and the
local directory of the id all survive destruction. -/
theorem chatBotDel_deletes_nothing :
    vectorStoreModuleNames.contains "deleteVectorStore" = false ∧
    ∀ (id : String) (w : World),
      chatBotDel id w =
        (Except.error
          "AttributeError: module chatbot.VectorStore has no attribute deleteVectorStore",
         w) := by
  refine ⟨by decide, ?_⟩
  intro id w
  rfl

/-- Claim C2: the claim says ask_question returns a streaming sequence
of fragments of the final answer and appends the turn to the history.
The code contradicts it: stream on the conversational chain is a
generator function, so the call returns a generator object, and the
subscription with the answer key that ask_question immediately applies
to it raises TypeError before any chain step runs -- no fragment is
produced and the history is left untouched, whatever the question and
whatever chunks the generator would have yielded. -/
theorem ask_question_raises_type_error :
    ∀ (chunks : List PyVal) (question : String) (hist : Option (List ChatTurn)),
      ask_question chunks question hist =
        (Except.error "TypeError: generator object is not subscriptable", hist) := by
  intro chunks question hist
  rfl

/-- Claim C3: the claim says that when the upload of any file fails
after exhausting retries, buildIndex returns false.  The code
contradicts it on any index with a subdirectory listed after a
top-level file: evaluated on the concrete layout [file b, dir sub
[file a]] where the upload of vectorstores/p/sub/a raises on all 3
attempts, buildS3VectorStoreFor returns True -- the recursive upload
call for sub performs the failure cleanup and returns False, but the
caller discards that result and finishes successfully.  (Both stores
are indeed absent afterwards; it is the reported boolean that is
wrong, contradicting the docstring of buildS3VectorStoreFor and the
debug message announcing that the failed file causes the whole
vectorstore to fail.) -/
theorem buildS3_true_despite_exhausted_upload :
    (buildS3VectorStoreFor fSubA pxBasic cbNested "p" wStart).1 = Except.ok true ∧
    failedUploadCount (buildS3VectorStoreFor fSubA pxBasic cbNested "p" wStart).2.trace
      "vectorstores/p/sub/a" = 3 ∧
    remoteUnder (buildS3VectorStoreFor fSubA pxBasic cbNested "p" wStart).2 "p" = [] ∧
    lookupVS (buildS3VectorStoreFor fSubA pxBasic cbNested "p" wStart).2 "p" = none := by
  refine ⟨rfl, by decide, rfl, rfl⟩

/-- Claim C5: the history lookup callback of a ChatBot ignores the
session id it is passed: on any cached state its result is the same
whatever the argument; the history starts out absent (self.history is
None after construction), the first lookup creates and caches the one
empty history, and every later lookup returns exactly the cached
object unchanged. -/
theorem get_session_history_ignores_argument :
    chatBotInitHistory = none ∧
    (∀ (hist : Option (List ChatTurn)) (a b : String),
      get_session_history hist a = get_session_history hist b) ∧
    (∀ (a : String), get_session_history chatBotInitHistory a = ([], some [])) ∧
    (∀ (h : List ChatTurn) (a : String),
      get_session_history (some h) a = (h, some h)) := by
  refine ⟨rfl, ?_, ?_, ?_⟩
  · intro hist a b
    cases hist <;> rfl
  · intro a
    rfl
  · intro h a
    rfl

/-- Opening the local store never changes the world. -/
lemma getLocal_world (f : Faults) (id : String) (w : World) :
    (getLocalVectorStoreFor f id w).2 = w := by
  unfold getLocalVectorStoreFor
  cases lookupVS w id
  · rfl
  · cases hc : f.chromaOpenFails <;> simp [hc]

/-- deleteLocalVectorStore always reports True and only erases the
local tree of the id. -/
lemma deleteLocal_eq (f : Faults) (id : String) (w : World) :
    deleteLocalVectorStore f id w =
      (true, { w with localVS := w.localVS.filter fun p => !(p.1 == id) }) := by
  unfold deleteLocalVectorStore
  simp only [getLocal_world]

/-- Claim C4 (counterexample): the claim says a wrapped remote
operation whose underlying call always raises performs its 3 attempts
separated by exactly two 3-second delays.  Evaluated on the concrete
always-failing faults, the existence check sleeps three times, not
two: the source sleeps after every failed attempt, including the last
one, before the loop exits. -/
theorem checkS3_retry_sleeps_three_not_two :
    sleepCount (checkS3VectorStoreFor fAllFail "p" wStart).2.trace = 3 ∧
    sleepCount (checkS3VectorStoreFor fAllFail "p" wStart).2.trace ≠ 2 := by
  exact ⟨by decide, by decide⟩

/-- Claim C4 (amended): when the underlying remote call raises on
every attempt, each of the list / delete / download / upload
operations performs exactly 3 attempts with a fixed 3-second delay
after every failed attempt -- three delays in total, including one
after the final attempt -- and then reports failure as an ordinary
False result, the exception never propagating. -/
theorem retry_exhaustion_three_attempts_three_sleeps :
    ∀ (f : Faults) (id fname : String) (father : Option String) (w : World),
      w.s3init = true → w.trace = [] →
      f.listFails = true →
      f.uploadFails.contains (uploadFileKey id fname father) = true →
      ((checkS3VectorStoreFor f id w).1 = Except.ok false ∧
        sleepCount (checkS3VectorStoreFor f id w).2.trace = 3 ∧
        remoteCallCount (checkS3VectorStoreFor f id w).2.trace = 3) ∧
      ((deleteS3VectorstoreFor f id w).1 = Except.ok false ∧
        sleepCount (deleteS3VectorstoreFor f id w).2.trace = 3 ∧
        remoteCallCount (deleteS3VectorstoreFor f id w).2.trace = 3) ∧
      ((downloadS3VectorstoreFor f id w).1 = Except.ok false ∧
        sleepCount (downloadS3VectorstoreFor f id w).2.trace = 3 ∧
        remoteCallCount (downloadS3VectorstoreFor f id w).2.trace = 3) ∧
      ((upload_file f id fname father w).1 = Except.ok false ∧
        sleepCount (upload_file f id fname father w).2.trace = 3 ∧
        remoteCallCount (upload_file f id fname father w).2.trace = 3) := by
  intro f id fname father w hinit htr hlist hup
  refine ⟨?_, ?_, ?_, ?_⟩
  · simp [checkS3VectorStoreFor, hinit, checkLoop, s3listObjects, hlist,
      sleepThree, emit, htr, sleepCount, remoteCallCount]
  · simp [deleteS3VectorstoreFor, hinit, deleteRetryLoop, deleteTry,
      s3listObjects, hlist, sleepThree, emit, htr, sleepCount, remoteCallCount]
  · simp [downloadS3VectorstoreFor, hinit, deleteLocal_eq, downloadRetryLoop,
      downloadTry, s3listObjects, hlist, sleepThree, emit, htr, sleepCount,
      remoteCallCount]
  · have hmem : uploadFileKey id fname father ∈ f.uploadFails := by
      simpa using hup
    simp [upload_file, hinit, uploadFileLoop, s3uploadFile, hmem,
      sleepThree, emit, htr, sleepCount, remoteCallCount]

/-- Witness for the amended retry theorem at concrete inputs. -/
theorem retry_exhaustion_witness :
    (checkS3VectorStoreFor fAllFail "p" wStart).1 = Except.ok false ∧
    sleepCount (checkS3VectorStoreFor fAllFail "p" wStart).2.trace = 3 ∧
    remoteCallCount (checkS3VectorStoreFor fAllFail "p" wStart).2.trace = 3 ∧
    (upload_file fAllFail "p" "f" none wStart).1 = Except.ok false ∧
    sleepCount (upload_file fAllFail "p" "f" none wStart).2.trace = 3 ∧
    remoteCallCount (upload_file fAllFail "p" "f" none wStart).2.trace = 3 := by
  have h := retry_exhaustion_three_attempts_three_sleeps fAllFail "p" "f" none
    wStart rfl rfl rfl rfl
  exact ⟨h.1.1, h.1.2.1, h.1.2.2, h.2.2.2.1, h.2.2.2.2.1, h.2.2.2.2.2⟩

/-- The existence check answers False on a world with no remote
objects under the prefix of the id (shared by claims about the
never-built and the post-wipe states). -/
lemma checkS3_empty (f : Faults) (id : String) (w : World)
    (hinit : w.s3init = true) (hl : f.listFails = false)
    (hr : remoteUnder w id = []) :
    (checkS3VectorStoreFor f id w).1 = Except.ok false := by
  have hr' : w.remote.filter (fun k => strBegins k (vsKeyPre id)) = [] := hr
  simp [checkS3VectorStoreFor, hinit, checkLoop, s3listObjects, hl, emit, hr']

/-- Retrieval answers None on a world with no remote objects under the
prefix of the id. -/
lemma getS3_none (f : Faults) (id : String) (w : World)
    (hinit : w.s3init = true) (hl : f.listFails = false)
    (hr : remoteUnder w id = []) :
    (getS3VectorStoreFor f id w).1 = Except.ok none := by
  have hr' : w.remote.filter (fun k => strBegins k (vsKeyPre id)) = [] := hr
  simp [getS3VectorStoreFor, downloadS3VectorstoreFor, hinit, deleteLocal_eq,
    downloadRetryLoop, downloadTry, s3listObjects, hl, emit, hr']

/-- Claim C6: for a product id that was never built (no remote object
under its prefix), on an initialized world whose listing succeeds, the
existence check answers False and retrieval answers None. -/
theorem never_built_check_false_get_absent :
    ∀ (f : Faults) (id : String) (w : World),
      w.s3init = true → f.listFails = false → remoteUnder w id = [] →
      (checkS3VectorStoreFor f id w).1 = Except.ok false ∧
      (getS3VectorStoreFor f id w).1 = Except.ok none := by
  intro f id w hinit hl hr
  exact ⟨checkS3_empty f id w hinit hl hr, getS3_none f id w hinit hl hr⟩

/-- Witness for the never-built claim at concrete inputs. -/
theorem never_built_witness :
    (checkS3VectorStoreFor fNone "q" wStart).1 = Except.ok false ∧
    (getS3VectorStoreFor fNone "q" wStart).1 = Except.ok none :=
  never_built_check_false_get_absent fNone "q" wStart rfl rfl rfl

/-- Filtering out the entries of a key makes a later lookup of that key
fail. -/
lemma find?_filter_ne {α : Type} (l : List (String × α)) (id : String) :
    (l.filter fun p => !(p.1 == id)).find? (fun p => p.1 == id) = none := by
  induction l with
  | nil => rfl
  | cons a l ih =>
    cases h : (a.1 == id) <;> simp [List.filter_cons, h, List.find?_cons, ih]

/-- After deleteLocalVectorStore the local tree of the id is gone. -/
lemma lookupVS_deleteLocal (f : Faults) (id : String) (w : World) :
    lookupVS (deleteLocalVectorStore f id w).2 id = none := by
  simp [deleteLocal_eq, lookupVS, find?_filter_ne]

/-- Claim C7: whenever buildS3VectorStoreFor reports success, the
local directory of the id is absent afterwards -- the build deletes
the local staging copy after the upload on every returning path. -/
theorem buildS3_success_no_local_dir :
    ∀ (f : Faults) (px : Parsers) (cb : String → List Entry) (id : String)
      (w : World),
      (buildS3VectorStoreFor f px cb id w).1 = Except.ok true →
      lookupVS (buildS3VectorStoreFor f px cb id w).2 id = none := by
  intro f px cb id w h
  unfold buildS3VectorStoreFor at h ⊢
  rcases hb : buildLocalVectorStoreFor px cb id w with ⟨rb, wb⟩
  rw [hb] at h
  cases rb with
  | error e => simp at h
  | ok hdl =>
    dsimp only at h ⊢
    rcases hu : uploadS3VectorstoreFor f id wb with ⟨ru, wu⟩
    rw [hu] at h
    cases ru with
    | error e => simp at h
    | ok b =>
      cases b
      · simp at h
      · simpa using lookupVS_deleteLocal f id wu

/-- Witness for the post-build cleanup claim at concrete inputs. -/
theorem buildS3_success_witness :
    (buildS3VectorStoreFor fNone pxBasic cbFlat "p" wStart).1 = Except.ok true ∧
    lookupVS (buildS3VectorStoreFor fNone pxBasic cbFlat "p" wStart).2 "p" = none :=
  ⟨rfl, buildS3_success_no_local_dir fNone pxBasic cbFlat "p" wStart rfl⟩

/-- Claim C8: calling any remote operation before initS3Storage raises
the configuration error at once: the result is that exception and the
world is returned untouched -- no attempt, no sleep, no retry -- and
the exception reaches the caller (it is the error component of the
result, not a swallowed boolean). -/
theorem uninitialized_raises_config_error :
    ∀ (f : Faults) (id fname : String) (father : Option String) (w : World),
      w.s3init = false →
      checkS3VectorStoreFor f id w = (Except.error initErrMsg, w) ∧
      deleteS3VectorstoreFor f id w = (Except.error initErrMsg, w) ∧
      downloadS3VectorstoreFor f id w = (Except.error initErrMsg, w) ∧
      getS3VectorStoreFor f id w = (Except.error initErrMsg, w) ∧
      upload_file f id fname father w = (Except.error initErrMsg, w) ∧
      uploadS3VectorstoreFor f id w = (Except.error initErrMsg, w) := by
  intro f id fname father w h
  have hdel : deleteS3VectorstoreFor f id w = (Except.error initErrMsg, w) := by
    simp [deleteS3VectorstoreFor, h]
  have hdn : downloadS3VectorstoreFor f id w = (Except.error initErrMsg, w) := by
    simp [downloadS3VectorstoreFor, h]
  have hupw : uploadS3VectorstoreFor f id w = (Except.error initErrMsg, w) := by
    unfold uploadS3VectorstoreFor uploadFuel
    cases hv : lookupVS w id <;> simp [uploadS3Go, hdel]
  refine ⟨by simp [checkS3VectorStoreFor, h], hdel, hdn, ?_, ?_, hupw⟩
  · simp [getS3VectorStoreFor, hdn]
  · simp [upload_file, h]

/-- Witness for the uninitialized-raises claim at concrete inputs. -/
theorem uninitialized_witness :
    checkS3VectorStoreFor fNone "p" wNoInit = (Except.error initErrMsg, wNoInit) ∧
    getS3VectorStoreFor fNone "p" wNoInit = (Except.error initErrMsg, wNoInit) ∧
    upload_file fNone "p" "f" none wNoInit = (Except.error initErrMsg, wNoInit) ∧
    uploadS3VectorstoreFor fNone "p" wNoInit = (Except.error initErrMsg, wNoInit) := by
  have h := uninitialized_raises_config_error fNone "p" "f" none wNoInit rfl
  exact ⟨h.1, h.2.2.2.1, h.2.2.2.2.1, h.2.2.2.2.2⟩

/-- Every document produced by the loader loop originates from a file
whose extension is one of the supported ones: the unsupported branch
contributes no documents and raises nothing. -/
lemma loadLoop_supported (px : Parsers) :
    ∀ (files : List String) (d : PyDocument), d ∈ loadLoop px files →
      supportedExt (splitextExt d.src) = true := by
  intro files
  induction files with
  | nil =>
    intro d hd
    simp [loadLoop] at hd
  | cons file rest ih =>
    intro d hd
    rw [loadLoop] at hd
    rcases List.mem_append.mp hd with h1 | h2
    · split at h1
      next hcond =>
        rcases List.mem_map.mp h1 with ⟨n, _, hn⟩
        rcases Bool.or_eq_true_iff.mp hcond with hx | hx <;>
          simp [← hn, supportedExt, hx]
      next hcond =>
        split at h1
        next hcond2 =>
          rcases List.mem_map.mp h1 with ⟨n, _, hn⟩
          rcases Bool.or_eq_true_iff.mp hcond2 with hx | hx <;>
            simp [← hn, supportedExt, hx]
        next hcond2 =>
          split at h1
          next hcond3 =>
            rcases List.mem_map.mp h1 with ⟨n, _, hn⟩
            simp [← hn, supportedExt, hcond3]
          next hcond3 =>
            split at h1
            next hcond4 =>
              rcases List.mem_singleton.mp h1 with hn
              simp [hn, supportedExt, hcond4]
            next hcond4 =>
              simp at h1
    · exact ih d h2

/-- Claim C9: the loader of a present source folder returns exactly
the loop over its listed files, every produced document comes from a
file with a supported extension (unknown extensions are skipped, not
errors), a missing folder raises the pool-not-found error, and an
empty folder yields the empty list. -/
theorem load_document_supported_only :
    ∀ (px : Parsers) (id : String) (w : World),
      (∀ files, lookupPool w id = some files →
        load_document px id w = Except.ok (loadLoop px files) ∧
        ∀ d ∈ loadLoop px files, supportedExt (splitextExt d.src) = true) ∧
      (lookupPool w id = none →
        load_document px id w = Except.error (poolNotFoundMsg id)) ∧
      (lookupPool w id = some [] → load_document px id w = Except.ok []) := by
  intro px id w
  refine ⟨?_, ?_, ?_⟩
  · intro files hp
    exact ⟨by simp [load_document, hp], fun d hd => loadLoop_supported px files d hd⟩
  · intro hp
    simp [load_document, hp]
  · intro hp
    simp [load_document, hp, loadLoop]

/-- Witness for the loader claim: a folder with one text file, one
unsupported binary and one pdf yields documents from the text and pdf
files only; a missing folder raises; an empty folder yields the empty
list. -/
theorem load_document_witness :
    load_document pxBasic "p" wDocs =
      Except.ok [⟨"a.txt", 7⟩, ⟨"c.pdf", 1⟩, ⟨"c.pdf", 2⟩] ∧
    load_document pxBasic "missing" wDocs =
      Except.error (poolNotFoundMsg "missing") ∧
    load_document pxBasic "e" wDocs = Except.ok [] := by
  have h1 := load_document_supported_only pxBasic "p" wDocs
  have h2 := load_document_supported_only pxBasic "missing" wDocs
  have h3 := load_document_supported_only pxBasic "e" wDocs
  refine ⟨?_, h2.2.1 rfl, h3.2.2 rfl⟩
  have heq := (h1.1 ["a.txt", "b.bin", "c.pdf"] rfl).1
  exact heq.trans (by rfl)

/-- A failed upload occurs in a concatenated trace iff it occurs in
one of the parts. -/
lemma hasFailedUpload_append (a b : List Ev) :
    hasFailedUpload (a ++ b) = (hasFailedUpload a || hasFailedUpload b) :=
  List.any_append

/-- remoteUnder only looks at the remote key list. -/
lemma remoteUnder_congr {w1 w2 : World} (h : w1.remote = w2.remote) (id : String) :
    remoteUnder w1 id = remoteUnder w2 id := by
  simp [remoteUnder, h]

/-- The accumulating delete loop with no delete fault: it answers ok,
never touches local state or the pool, only removes remote keys,
removes every listed key, and its trace delta consists of delete
events only (the first one present as soon as the key list is not
empty). -/
lemma deleteAccLoop_spec (f : Faults) (hd : f.deleteFails = false) :
    ∀ (ks acc : List String) (w : World),
      ∃ w', deleteAccLoop f acc ks w = (Except.ok (), w') ∧
        w'.s3init = w.s3init ∧ w'.localVS = w.localVS ∧ w'.pool = w.pool ∧
        (∀ k, k ∈ w'.remote → k ∈ w.remote) ∧
        (∀ k, k ∈ ks → k ∉ w'.remote) ∧
        ∃ tl, w'.trace = w.trace ++ tl ∧ hasFailedUpload tl = false ∧
          (ks ≠ [] → ∃ ks0 tl2, tl = Ev.deleteKeys ks0 :: tl2) := by
  intro ks
  induction ks with
  | nil =>
    intro acc w
    refine ⟨w, rfl, rfl, rfl, rfl, fun k hk => hk, ?_, [], by simp, rfl, ?_⟩
    · intro k hk
      cases hk
    · intro hne
      cases hne rfl
  | cons k1 rest ih =>
    intro acc w
    have hstep : s3deleteObjects f (acc ++ [k1]) w =
        (Except.ok (), { w with
          remote := w.remote.filter fun k => !((acc ++ [k1]).contains k),
          trace := w.trace ++ [Ev.deleteKeys (acc ++ [k1])] }) := by
      simp [s3deleteObjects, hd, emit]
    rcases ih (acc ++ [k1]) { w with
        remote := w.remote.filter fun k => !((acc ++ [k1]).contains k),
        trace := w.trace ++ [Ev.deleteKeys (acc ++ [k1])] } with
      ⟨w', heq, hs, hlv, hp, hsub, hgone, tl, htl, hnf, _⟩
    refine ⟨w', ?_, hs, hlv, hp, ?_, ?_, ?_⟩
    · rw [deleteAccLoop, hstep]
      exact heq
    · intro k hk
      exact (List.mem_filter.mp (hsub k hk)).1
    · intro k hk
      rcases List.mem_cons.mp hk with hk1 | hk2
      · subst hk1
        intro hmem
        have hcont := (List.mem_filter.mp (hsub k hmem)).2
        simp at hcont
      · exact hgone k hk2
    · refine ⟨Ev.deleteKeys (acc ++ [k1]) :: tl, ?_, ?_, ?_⟩
      · rw [htl]
        simp
      · simpa [hasFailedUpload] using hnf
      · intro _
        exact ⟨acc ++ [k1], tl, rfl⟩

/-- deleteS3VectorstoreFor with no list and no delete fault on an
initialized world: it answers True at the first retry, never touches
local state or the pool, only removes remote keys, leaves nothing
under the prefix of the id, and its trace delta is the list call
followed by delete events only (the first delete present as soon as
something was under the prefix). -/
lemma deleteS3_spec (f : Faults) (id : String) (w : World)
    (hinit : w.s3init = true) (hl : f.listFails = false)
    (hd : f.deleteFails = false) :
    ∃ w', deleteS3VectorstoreFor f id w = (Except.ok true, w') ∧
      w'.s3init = w.s3init ∧ w'.localVS = w.localVS ∧ w'.pool = w.pool ∧
      (∀ k, k ∈ w'.remote → k ∈ w.remote) ∧
      remoteUnder w' id = [] ∧
      ∃ tl, w'.trace = w.trace ++ (Ev.listCall :: tl) ∧
        hasFailedUpload (Ev.listCall :: tl) = false ∧
        (remoteUnder w id ≠ [] → ∃ ks0 tl2, tl = Ev.deleteKeys ks0 :: tl2) := by
  have hlist : s3listObjects f (vsKeyPre id) w =
      (Except.ok (remoteUnder w id), { w with trace := w.trace ++ [Ev.listCall] }) := by
    simp [s3listObjects, hl, emit, remoteUnder]
  by_cases hks : remoteUnder w id = []
  · refine ⟨{ w with trace := w.trace ++ [Ev.listCall] }, ?_, rfl, rfl, rfl,
      fun k hk => hk, ?_, [], by simp, by simp [hasFailedUpload], ?_⟩
    · have hemp : (remoteUnder w id).isEmpty = true := by
        rw [hks]
        rfl
      simp [deleteS3VectorstoreFor, hinit, deleteRetryLoop, deleteTry, hlist, hemp]
    · calc remoteUnder { w with trace := w.trace ++ [Ev.listCall] } id
          = remoteUnder w id := remoteUnder_congr rfl id
        _ = [] := hks
    · intro hne
      cases hne hks
  · rcases deleteAccLoop_spec f hd (remoteUnder w id) []
      { w with trace := w.trace ++ [Ev.listCall] } with
      ⟨w', heq, hs, hlv, hp, hsub, hgone, tl, htl, hnf, hhead⟩
    have hemp : (remoteUnder w id).isEmpty = false := by
      rcases List.exists_cons_of_ne_nil hks with ⟨c, cs, hcons⟩
      rw [hcons]
      rfl
    refine ⟨w', ?_, hs, hlv, hp, hsub, ?_, ?_⟩
    · rw [hinit] at heq
      simp [deleteS3VectorstoreFor, hinit, deleteRetryLoop, deleteTry, hlist,
        hemp, heq]
    · apply List.eq_nil_iff_forall_not_mem.mpr
      intro k hk
      have hk' := List.mem_filter.mp hk
      have hmem_w : k ∈ w.remote := hsub k hk'.1
      have hin : k ∈ remoteUnder w id := List.mem_filter.mpr ⟨hmem_w, hk'.2⟩
      exact hgone k hin hk'.1
    · refine ⟨tl, ?_, ?_, fun _ => hhead hks⟩
      · rw [htl]
        simp
      · simpa [hasFailedUpload] using hnf

/-- The upload retry loop when the attempt condition is false (missing
local file or faulted key): every attempt raises, the world gains only
trace events, and the result is False; with at least one attempt the
delta records a failed upload. -/
lemma uploadFileLoop_false (f : Faults) (id : String) (segs : List String)
    (key : String) :
    ∀ (n : Nat) (w : World),
      (localFileExists w id segs && !(f.uploadFails.contains key)) = false →
      ∃ t, uploadFileLoop f id segs key n w =
          (false, { w with trace := w.trace ++ t }) ∧
        (0 < n → hasFailedUpload t = true) := by
  intro n
  induction n with
  | zero =>
    intro w hc
    refine ⟨[], ?_, fun h => absurd h (by simp)⟩
    simp [uploadFileLoop]
  | succ n ih =>
    intro w hc
    have hstep : s3uploadFile f id segs key w =
        (Except.error "upload failure",
          { w with trace := w.trace ++ [Ev.uploadKey key false] }) := by
      simp only [s3uploadFile, emit]
      rw [hc]
      simp
    rcases ih { w with trace := w.trace ++ [Ev.uploadKey key false, Ev.sleep3] }
        hc with ⟨t, ht, _⟩
    refine ⟨Ev.uploadKey key false :: Ev.sleep3 :: t, ?_,
      fun _ => by simp [hasFailedUpload]⟩
    rw [uploadFileLoop, hstep]
    simp [sleepThree, emit, ht]

/-- __upload_file on an initialized world: the reported boolean is
exactly whether the local file exists and the key is unfaulted; a
success only adds the key to the bucket, a failure leaves the bucket
untouched; local trees and pool are never touched; and the trace delta
records a failed upload iff the upload failed. -/
lemma upload_file_spec (f : Faults) (id fname : String) (father : Option String)
    (w : World) (hinit : w.s3init = true) :
    ∃ w', upload_file f id fname father w =
        (Except.ok (localFileExists w id (uploadFileSegs fname father) &&
          !(f.uploadFails.contains (uploadFileKey id fname father))), w') ∧
      w'.s3init = w.s3init ∧ w'.localVS = w.localVS ∧ w'.pool = w.pool ∧
      (∀ k, k ∈ w'.remote → k ∈ w.remote ∨ k = uploadFileKey id fname father) ∧
      ((localFileExists w id (uploadFileSegs fname father) &&
          !(f.uploadFails.contains (uploadFileKey id fname father))) = false →
        w'.remote = w.remote) ∧
      ∃ tl, w'.trace = w.trace ++ tl ∧
        hasFailedUpload tl =
          !(localFileExists w id (uploadFileSegs fname father) &&
            !(f.uploadFails.contains (uploadFileKey id fname father))) := by
  cases hok : localFileExists w id (uploadFileSegs fname father) &&
      !(f.uploadFails.contains (uploadFileKey id fname father)) with
  | true =>
    refine ⟨{ w with
        remote := if w.remote.contains (uploadFileKey id fname father) then w.remote
          else w.remote ++ [uploadFileKey id fname father],
        trace := w.trace ++ [Ev.uploadKey (uploadFileKey id fname father) true] },
      ?_, rfl, rfl, rfl, ?_, ?_,
      ⟨[Ev.uploadKey (uploadFileKey id fname father) true], rfl,
        by simp [hasFailedUpload, hok]⟩⟩
    · have hstep : s3uploadFile f id (uploadFileSegs fname father)
          (uploadFileKey id fname father) w =
          (Except.ok (), { w with
            remote := if w.remote.contains (uploadFileKey id fname father) then
                w.remote
              else w.remote ++ [uploadFileKey id fname father],
            trace := w.trace ++
              [Ev.uploadKey (uploadFileKey id fname father) true] }) := by
        simp only [s3uploadFile, emit]
        rw [hok]
        simp
      simp [upload_file, hinit, uploadFileLoop, hstep]
    · intro k hk
      dsimp only at hk
      by_cases hc : w.remote.contains (uploadFileKey id fname father) = true
      · rw [if_pos hc] at hk
        exact Or.inl hk
      · rw [if_neg hc] at hk
        rcases List.mem_append.mp hk with hk1 | hk2
        · exact Or.inl hk1
        · exact Or.inr (List.mem_singleton.mp hk2)
    · intro hfalse
      simp at hfalse
  | false =>
    rcases uploadFileLoop_false f id (uploadFileSegs fname father)
        (uploadFileKey id fname father) 3 w hok with ⟨t, ht, hfail⟩
    refine ⟨{ w with trace := w.trace ++ t }, ?_, rfl, rfl, rfl,
      fun k hk => Or.inl hk, fun _ => rfl,
      ⟨t, rfl, by rw [hfail (by simp)]; rfl⟩⟩
    simp [upload_file, hinit, ht, hok]

/-- A missing local tree means no local file below it. -/
lemma localFileExists_none {w : World} {id : String} (h : lookupVS w id = none)
    (segs : List String) : localFileExists w id segs = false := by
  simp [localFileExists, h]

/-- buildLocalVectorStoreFor on a present source folder: it succeeds
and only replaces the local tree of the id (with whatever the Chroma
library persists). -/
lemma buildLocal_spec (px : Parsers) (cb : String → List Entry) (id : String)
    (w : World) (files : List String) (hp : lookupPool w id = some files) :
    ∃ w', buildLocalVectorStoreFor px cb id w = (Except.ok ⟨id⟩, w') ∧
      w'.s3init = w.s3init ∧ w'.remote = w.remote ∧ w'.pool = w.pool ∧
      w'.trace = w.trace := by
  cases hf : w.localVS.find? (fun p => p.1 == id) with
  | none =>
    refine ⟨{ w with localVS := w.localVS ++ [(id, cb id)] }, ?_, rfl, rfl, rfl, rfl⟩
    simp [buildLocalVectorStoreFor, load_document, hp, hf]
  | some q =>
    refine ⟨{ w with localVS := w.localVS.map fun p =>
        if p.1 == id then (p.1, cb id) else p }, ?_, rfl, rfl, rfl, rfl⟩
    simp [buildLocalVectorStoreFor, load_document, hp, hf]

/-- Once the remote prefix and the local tree of the id are both gone,
any further run of the upload name loop keeps them gone: the first
entry it touches is treated as a file (the directory test fails under
a missing tree), its upload fails for want of the local file, and the
failure cleanup deletes again and stops the loop. -/
lemma loopCleaned (go : List String → Option String → World → Except String Bool × World)
    (f : Faults) (id : String) (hl : f.listFails = false)
    (hd : f.deleteFails = false) :
    ∀ (names ps : List String) (father : Option String) (w : World)
      (r : Except String Bool) (w' : World),
      w.s3init = true → remoteUnder w id = [] → lookupVS w id = none →
      uploadS3Loop go f id (id :: ps) father names w = (r, w') →
      w'.s3init = true ∧ w'.pool = w.pool ∧ remoteUnder w' id = [] ∧
      lookupVS w' id = none ∧ ∃ tl, w'.trace = w.trace ++ tl := by
  intro names ps father w r w' hinit hrem hloc heq
  cases names with
  | nil =>
    simp only [uploadS3Loop] at heq
    injection heq with h1 h2
    subst h2
    exact ⟨hinit, rfl, hrem, hloc, [], by simp⟩
  | cons name rest =>
    have hdir : isDirAt w ((id :: ps) ++ [name]) = false := by
      simp [isDirAt, hloc]
    simp only [uploadS3Loop] at heq
    rw [hdir] at heq
    simp only [Bool.false_eq_true, if_false] at heq
    have hfe : localFileExists w id (uploadFileSegs name father) = false :=
      localFileExists_none hloc _
    rcases upload_file_spec f id name father w hinit with
      ⟨w1, hup, hs1, hlv1, hp1, hsub1, hunch1, tl1, htl1, hfl1⟩
    rw [hfe] at hup hunch1
    simp only [Bool.false_and] at hup hunch1
    rw [hup] at heq
    dsimp only at heq
    rcases deleteS3_spec f id w1 (by rw [hs1, hinit]) hl hd with
      ⟨w2, hdel, hs2, hlv2, hp2, hsub2, hru2, tl2, htl2, hnf2, _⟩
    rw [hdel] at heq
    dsimp only at heq
    rw [deleteLocal_eq] at heq
    injection heq with h1 h2
    subst h2
    refine ⟨?_, ?_, ?_, ?_, ?_⟩
    · show w2.s3init = true
      rw [hs2, hs1, hinit]
    · show w2.pool = w.pool
      rw [hp2, hp1]
    · calc remoteUnder { w2 with
            localVS := w2.localVS.filter fun p => !(p.1 == id) } id
          = remoteUnder w2 id := remoteUnder_congr rfl id
        _ = [] := hru2
    · show lookupVS { w2 with
          localVS := w2.localVS.filter fun p => !(p.1 == id) } id = none
      simp [lookupVS, find?_filter_ne]
    · refine ⟨tl1 ++ (Ev.listCall :: tl2), ?_⟩
      show w2.trace = w.trace ++ (tl1 ++ (Ev.listCall :: tl2))
      rw [htl2, htl1]
      simp

/-- Fuel zero: the model reports exhaustion as an exception and
touches nothing, so the upload postcondition holds vacuously. -/
lemma goZero (f : Faults) (id : String) : GoStatement f id 0 := by
  intro ps father w r w' hinit heq
  simp only [uploadS3Go] at heq
  injection heq with h1 h2
  subst h2
  refine ⟨rfl, rfl, [], by simp, ?_⟩
  intro b hb
  rw [← h1] at hb
  simp at hb

/-- From the go postcondition at a fuel to the loop postcondition at
the same fuel, by induction over the listed names. -/
lemma loopStep (f : Faults) (id : String) (hl : f.listFails = false)
    (hd : f.deleteFails = false) (n : Nat) (hGo : GoStatement f id n) :
    LoopStatement f id n := by
  intro names
  induction names with
  | nil =>
    intro ps father w r w' hinit heq
    simp only [uploadS3Loop] at heq
    injection heq with h1 h2
    subst h2
    refine ⟨rfl, rfl, [], by simp, ?_⟩
    intro b hb hfail
    simp [hasFailedUpload] at hfail
  | cons name rest ih =>
    intro ps father w r w' hinit heq
    simp only [uploadS3Loop] at heq
    cases hdir : isDirAt w ((id :: ps) ++ [name]) with
    | true =>
      rw [hdir] at heq
      simp only [if_true, eq_self_iff_true] at heq
      generalize hfp : (match father with
        | some fa => fa ++ "/" ++ name
        | none => name) = fp at heq
      rcases hgo : uploadS3Go f id n ((id :: ps) ++ [name]) (some fp) w
        with ⟨r0, w1⟩
      rw [hgo] at heq
      have hc : UploadConc id w w1 r0 :=
        hGo (ps ++ [name]) (some fp) w r0 w1 hinit hgo
      obtain ⟨hcs, hcp, tl1, htl1, himp1⟩ := hc
      cases r0 with
      | error e =>
        dsimp only at heq
        injection heq with h1 h2
        subst h2
        refine ⟨hcs, hcp, tl1, htl1, ?_⟩
        intro b hb hfail
        rw [← h1] at hb
        simp at hb
      | ok b0 =>
        dsimp only at heq
        have hinit1 : w1.s3init = true := by rw [hcs, hinit]
        have hc2 := ih ps father w1 r w' hinit1 heq
        obtain ⟨hcs2, hcp2, tl2, htl2, himp2⟩ := hc2
        refine ⟨by rw [hcs2, hcs], by rw [hcp2, hcp], tl1 ++ tl2,
          by rw [htl2, htl1, List.append_assoc], ?_⟩
        intro b hb hfail
        rw [hasFailedUpload_append] at hfail
        rcases Bool.or_eq_true_iff.mp hfail with hf1 | hf2
        · have hcl := himp1 b0 rfl hf1
          have hres := loopCleaned (uploadS3Go f id n) f id hl hd rest ps
            father w1 r w' hinit1 hcl.1 hcl.2 heq
          exact ⟨hres.2.2.1, hres.2.2.2.1⟩
        · exact himp2 b hb hf2
    | false =>
      rw [hdir] at heq
      simp only [Bool.false_eq_true, if_false] at heq
      rcases upload_file_spec f id name father w hinit with
        ⟨w1, hup, hs1, hlv1, hp1, hsub1, hunch1, tl1, htl1, hfl1⟩
      rw [hup] at heq
      have hinit1 : w1.s3init = true := by rw [hs1, hinit]
      cases hok : localFileExists w id (uploadFileSegs name father) &&
          !(f.uploadFails.contains (uploadFileKey id name father)) with
      | true =>
        rw [hok] at heq
        dsimp only at heq
        have hc2 := ih ps father w1 r w' hinit1 heq
        obtain ⟨hcs2, hcp2, tl2, htl2, himp2⟩ := hc2
        refine ⟨by rw [hcs2, hs1], by rw [hcp2, hp1], tl1 ++ tl2,
          by rw [htl2, htl1, List.append_assoc], ?_⟩
        intro b hb hfail
        rw [hasFailedUpload_append] at hfail
        rcases Bool.or_eq_true_iff.mp hfail with hf1 | hf2
        · rw [hok] at hfl1
          simp only [Bool.not_true] at hfl1
          rw [hfl1] at hf1
          cases hf1
        · exact himp2 b hb hf2
      | false =>
        rw [hok] at heq
        dsimp only at heq
        rcases deleteS3_spec f id w1 hinit1 hl hd with
          ⟨w2, hdel, hs2, hlv2, hp2, hsub2, hru2, tl2, htl2, hnf2, _⟩
        rw [hdel] at heq
        dsimp only at heq
        rw [deleteLocal_eq] at heq
        injection heq with h1 h2
        subst h2
        refine ⟨?_, ?_, ?_⟩
        · show w2.s3init = w.s3init
          rw [hs2, hs1]
        · show w2.pool = w.pool
          rw [hp2, hp1]
        · refine ⟨tl1 ++ (Ev.listCall :: tl2), ?_, ?_⟩
          · show w2.trace = w.trace ++ (tl1 ++ (Ev.listCall :: tl2))
            rw [htl2, htl1]
            simp
          · intro b hb hfail
            constructor
            · calc remoteUnder { w2 with
                    localVS := w2.localVS.filter fun p => !(p.1 == id) } id
                  = remoteUnder w2 id := remoteUnder_congr rfl id
                _ = [] := hru2
            · show lookupVS { w2 with
                  localVS := w2.localVS.filter fun p => !(p.1 == id) } id = none
              simp [lookupVS, find?_filter_ne]

/-- One fuel step of the recursive upload: the top-level delete runs
first (emitting no upload events), then the loop at the smaller
fuel. -/
lemma goSucc (f : Faults) (id : String) (hl : f.listFails = false)
    (hd : f.deleteFails = false) (n : Nat) (hLoop : LoopStatement f id n) :
    GoStatement f id (n + 1) := by
  intro ps father w r w' hinit heq
  simp only [uploadS3Go] at heq
  rcases deleteS3_spec f id w hinit hl hd with
    ⟨w1, hdel, hs1, hlv1, hp1, hsub1, hru1, tl0, htl0, hnf0, _⟩
  rw [hdel] at heq
  dsimp only at heq
  cases hls : listdirNames w1 (id :: ps) with
  | none =>
    rw [hls] at heq
    dsimp only at heq
    injection heq with h1 h2
    subst h2
    refine ⟨hs1, hp1, Ev.listCall :: tl0, htl0, ?_⟩
    intro b hb
    rw [← h1] at hb
    simp at hb
  | some names =>
    rw [hls] at heq
    dsimp only at heq
    have hinit1 : w1.s3init = true := by rw [hs1, hinit]
    have hc := hLoop names ps father w1 r w' hinit1 heq
    obtain ⟨hcs, hcp, tl1, htl1, himp⟩ := hc
    refine ⟨by rw [hcs, hs1], by rw [hcp, hp1], (Ev.listCall :: tl0) ++ tl1,
      by rw [htl1, htl0]; simp, ?_⟩
    intro b hb hfail
    rw [hasFailedUpload_append] at hfail
    rcases Bool.or_eq_true_iff.mp hfail with hf0 | hf1
    · rw [hnf0] at hf0
      cases hf0
    · exact himp b hb hf1

/-- The upload postcondition holds at every fuel. -/
lemma goAll (f : Faults) (id : String) (hl : f.listFails = false)
    (hd : f.deleteFails = false) : ∀ n, GoStatement f id n
  | 0 => goZero f id
  | n + 1 => goSucc f id hl hd n (loopStep f id hl hd n (goAll f id hl hd n))

/-- The loop postcondition holds at every fuel. -/
lemma loopAll (f : Faults) (id : String) (hl : f.listFails = false)
    (hd : f.deleteFails = false) (n : Nat) : LoopStatement f id n :=
  loopStep f id hl hd n (goAll f id hl hd n)

/-- Claim C10: on an initialized world whose listing and deletion
succeed, for a product id that already has a remote index and has a
source folder, buildS3VectorStoreFor deletes the whole existing remote
index before the first upload of the new one (the effect trace shows a
delete-objects call strictly before any upload attempt); consequently,
whenever some upload fails during the run, nothing remains under the
remote prefix afterwards and the existence check answers False, even
though a valid remote index existed before the call -- the build is
not atomic with respect to the pre-existing remote copy. -/
theorem buildS3_wipes_preexisting_remote :
    ∀ (f : Faults) (px : Parsers) (cb : String → List Entry) (id : String)
      (w : World),
      w.s3init = true → f.listFails = false → f.deleteFails = false →
      w.trace = [] → remoteUnder w id ≠ [] →
      (lookupPool w id).isSome = true →
      deleteBeforeFirstUpload (buildS3VectorStoreFor f px cb id w).2.trace = true ∧
      ∀ b, (buildS3VectorStoreFor f px cb id w).1 = Except.ok b →
        hasFailedUpload (buildS3VectorStoreFor f px cb id w).2.trace = true →
        remoteUnder (buildS3VectorStoreFor f px cb id w).2 id = [] ∧
        (checkS3VectorStoreFor f id (buildS3VectorStoreFor f px cb id w).2).1 =
          Except.ok false := by
  intro f px cb id w hinit hl hd htr hne hpool
  cases hp : lookupPool w id with
  | none =>
    rw [hp] at hpool
    simp at hpool
  | some files =>
  rcases buildLocal_spec px cb id w files hp with ⟨w1, hbl, hs1, hr1, hp1, ht1⟩
  unfold buildS3VectorStoreFor
  rw [hbl]
  dsimp only
  unfold uploadS3VectorstoreFor
  obtain ⟨m, hm⟩ : ∃ m, uploadFuel w1 id = m + 1 := by
    unfold uploadFuel
    cases lookupVS w1 id <;> exact ⟨_, rfl⟩
  rw [hm]
  simp only [uploadS3Go]
  have hinit1 : w1.s3init = true := by rw [hs1, hinit]
  have hne1 : remoteUnder w1 id ≠ [] := by
    rw [remoteUnder_congr hr1]
    exact hne
  rcases deleteS3_spec f id w1 hinit1 hl hd with
    ⟨w2, hdel, hs2, hlv2, hp2, hsub2, hru2, tl0, htl0, hnf0, hhead0⟩
  rcases hhead0 hne1 with ⟨ks0, tl2, htl2⟩
  subst htl2
  rw [hdel]
  dsimp only
  have hinit2 : w2.s3init = true := by rw [hs2, hinit1]
  have htr2 : w2.trace = Ev.listCall :: Ev.deleteKeys ks0 :: tl2 := by
    rw [htl0, ht1, htr]
    simp
  cases hls : listdirNames w2 [id] with
  | none =>
    dsimp only
    constructor
    · rw [htr2]
      rfl
    · intro b hb
      simp at hb
  | some names =>
    dsimp only
    rcases hloop : uploadS3Loop (uploadS3Go f id m) f id [id] none names w2
      with ⟨r3, w3⟩
    have hc := loopAll f id hl hd m names [] none w2 r3 w3 hinit2 hloop
    obtain ⟨hcs3, hcp3, tl3, htl3, himp3⟩ := hc
    have htr3 : w3.trace = Ev.listCall :: Ev.deleteKeys ks0 :: (tl2 ++ tl3) := by
      rw [htl3, htr2]
      simp
    have hinit3 : w3.s3init = true := by rw [hcs3, hinit2]
    have hfailsplit : hasFailedUpload w3.trace = true → hasFailedUpload tl3 = true := by
      intro hfa
      rw [htl3] at hfa
      rw [hasFailedUpload_append] at hfa
      rcases Bool.or_eq_true_iff.mp hfa with hf0 | hf1
      · rw [htr2] at hf0
        rw [show hasFailedUpload (Ev.listCall :: Ev.deleteKeys ks0 :: tl2) = false
          from hnf0] at hf0
        cases hf0
      · exact hf1
    cases r3 with
    | error e =>
      dsimp only
      constructor
      · rw [htr3]
        rfl
      · intro b hb
        simp at hb
    | ok b3 =>
      cases b3 <;> dsimp only <;> constructor
      · simp only [deleteLocal_eq]
        rw [htr3]
        rfl
      · intro b hb hfail
        simp only [deleteLocal_eq] at hfail
        have hcl := himp3 false rfl (hfailsplit hfail)
        constructor
        · simp only [deleteLocal_eq]
          exact (remoteUnder_congr rfl id).trans hcl.1
        · apply checkS3_empty
          · simp only [deleteLocal_eq]
            exact hinit3
          · exact hl
          · simp only [deleteLocal_eq]
            exact (remoteUnder_congr rfl id).trans hcl.1
      · simp only [deleteLocal_eq]
        rw [htr3]
        rfl
      · intro b hb hfail
        simp only [deleteLocal_eq] at hfail
        have hcl := himp3 true rfl (hfailsplit hfail)
        constructor
        · simp only [deleteLocal_eq]
          exact (remoteUnder_congr rfl id).trans hcl.1
        · apply checkS3_empty
          · simp only [deleteLocal_eq]
            exact hinit3
          · exact hl
          · simp only [deleteLocal_eq]
            exact (remoteUnder_congr rfl id).trans hcl.1

/-- Witness for the non-atomic rebuild claim: the bucket already holds
vectorstores/p/old; the rebuilt index is a single file idx whose
upload always fails; the run wipes the old key before the first upload
attempt and leaves nothing under the prefix, so the existence check
answers False although a valid index existed before the call. -/
theorem buildS3_wipes_witness :
    deleteBeforeFirstUpload
      (buildS3VectorStoreFor fIdx pxBasic cbFlat "p" wPre).2.trace = true ∧
    remoteUnder (buildS3VectorStoreFor fIdx pxBasic cbFlat "p" wPre).2 "p" = [] ∧
    (checkS3VectorStoreFor fIdx "p"
      (buildS3VectorStoreFor fIdx pxBasic cbFlat "p" wPre).2).1 =
      Except.ok false := by
  have h := buildS3_wipes_preexisting_remote fIdx pxBasic cbFlat "p" wPre rfl rfl
    rfl rfl (by decide) rfl
  have h2 := h.2 false rfl rfl
  exact ⟨h.1, h2.1, h2.2⟩

end RAGChatbot
